import Mathlib

set_option maxRecDepth 100000

/-!
Verification development for the zlover real-time session server.

The definitions below are a shallow embedding of the JavaScript sources:
  src/server.js            (rate limiter, room membership, signal relay)
  src/public/js/main.js    (client negotiation handlers, candidate queue)
Machine integers are modelled as Nat (all quantities involved are
non-negative timestamps, counts and durations), JS Map and Set as
association lists and insertion-ordered duplicate-free lists, and
fallible or event-emitting handlers as functions returning the new
state together with the list of emitted events.
-/

/-! ## Rate limiter (src/server.js, checkEnhancedRateLimit, lines 115-142) -/

def RATE_LIMIT : Nat := 100

def RATE_WINDOW : Nat := 15 * 60 * 1000

/-- Result record returned by the rate limiter.  The source returns
an object with an `allowed` flag and, on rejection, a reason and a
`retryAfter` value in seconds; the effective limit it computed is kept
here as well (the source computes it in a local variable and logs it). -/
structure RateResult where
  allowed : Bool
  retryAfter : Option Nat := none
  effLimit : Nat := RATE_LIMIT
  deriving Repr, DecidableEq

/-- JS Math.min over a list of timestamps (meaningful on non-empty input,
which is the only way the source uses it). -/
def listMin : List Nat → Nat
  | [] => 0
  | [t] => t
  | t :: ts => min t (listMin ts)

/-- Embedding of checkEnhancedRateLimit from src/server.js lines 115-142.
The ambient NODE_ENV test becomes the `production` flag, `now` is the
current clock and `stored` is the timestamp list held in the
`connections` map for the calling address; the function returns the
result object together with the list the map holds afterwards (the
source only writes the map back on the allow path). -/
def checkEnhancedRateLimit (production : Bool) (now : Nat) (stored : List Nat) :
    RateResult × List Nat :=
  if !production then ({ allowed := true }, stored)
  else
    let recentConnections := stored.filter (fun time => now - time < RATE_WINDOW)
    let limit1 := if recentConnections.length > 50 then 20 else RATE_LIMIT
    let limit2 := if recentConnections.length > 80 then 5 else limit1
    if limit2 ≤ recentConnections.length then
      ({ allowed := false
         retryAfter := some ((RATE_WINDOW - (now - listMin recentConnections) + 999) / 1000)
         effLimit := limit2 }, stored)
    else
      ({ allowed := true, effLimit := limit2 }, recentConnections ++ [now])

/-- Pruned timestamp list, as the claims describe it: entries older than
the window are dropped.  This coincides with the filter the source
applies on every production call. -/
def prunedOf (now : Nat) (stored : List Nat) : List Nat :=
  stored.filter (fun time => now - time < RATE_WINDOW)

/-- Effective limit as a function of the pruned count: base limit, 20
above 50, 5 above 80 (the tier checks of lines 126-127). -/
def effectiveLimitOf (count : Nat) : Nat :=
  if count > 80 then 5 else if count > 50 then 20 else RATE_LIMIT

/-- The periodic cleanup sweep of src/server.js lines 760-768: every
entry of the `connections` map is filtered down to in-window timestamps
and entries left empty are deleted. -/
def cleanupConnections (now : Nat) (conns : List (String × List Nat)) :
    List (String × List Nat) :=
  ((conns.map (fun kv => (kv.1, kv.2.filter (fun time => now - time < RATE_WINDOW))))).filter
    (fun kv => kv.2.length ≠ 0)

/-- Repeated calls to the rate limiter for one source key: each call at
the next listed time is run against the list the previous call stored,
starting from `stored`; returns the final stored list and the per-call
results in order. -/
def simulateCalls (production : Bool) : List Nat → List Nat → List Nat × List RateResult
  | [], stored => (stored, [])
  | t :: ts, stored =>
    let r := checkEnhancedRateLimit production t stored
    let rest := simulateCalls production ts r.2
    (rest.1, r.1 :: rest.2)

theorem effectiveLimitOf_eq (now : Nat) (stored : List Nat) :
    effectiveLimitOf (prunedOf now stored).length =
      (if (prunedOf now stored).length > 80 then 5
       else if (prunedOf now stored).length > 50 then 20 else RATE_LIMIT) := rfl

/-- Unfolding of the production path of the rate limiter in terms of the
pruned list and the effective limit. -/
theorem checkEnhancedRateLimit_production (now : Nat) (stored : List Nat) :
    checkEnhancedRateLimit true now stored =
      (if effectiveLimitOf (prunedOf now stored).length ≤ (prunedOf now stored).length then
        ({ allowed := false
           retryAfter := some
             ((RATE_WINDOW - (now - listMin (prunedOf now stored)) + 999) / 1000)
           effLimit := effectiveLimitOf (prunedOf now stored).length }, stored)
      else
        ({ allowed := true, effLimit := effectiveLimitOf (prunedOf now stored).length },
          prunedOf now stored ++ [now])) := rfl

/-- Claim C3: for every source key, each admit call first prunes recorded
timestamps older than the 15-minute window, then computes the effective
limit (base limit 100; 20 once the pruned count exceeds 50; 5 once it
exceeds 80); if the pruned count is at least the effective limit the
call rejects and reports retryAfter as the window minus the age of the
oldest surviving timestamp (converted to whole seconds, rounded up),
otherwise it records now and allows. -/
theorem C3_admit_prunes_limits_records (now : Nat) (stored : List Nat) :
    (effectiveLimitOf (prunedOf now stored).length ≤ (prunedOf now stored).length →
      checkEnhancedRateLimit true now stored =
        ({ allowed := false
           retryAfter := some
             ((RATE_WINDOW - (now - listMin (prunedOf now stored)) + 999) / 1000)
           effLimit := effectiveLimitOf (prunedOf now stored).length }, stored)) ∧
    ((prunedOf now stored).length < effectiveLimitOf (prunedOf now stored).length →
      checkEnhancedRateLimit true now stored =
        ({ allowed := true, effLimit := effectiveLimitOf (prunedOf now stored).length },
          prunedOf now stored ++ [now])) := by
  rw [checkEnhancedRateLimit_production]
  constructor
  · intro h
    rw [if_pos h]
  · intro h
    rw [if_neg (by omega)]

/-- Witness for C3: a key with 100 recorded in-window timestamps is
rejected (pruned count 100 exceeds 80, so the effective limit is 5 and
100 of course reaches it), with retryAfter the remaining window in whole
seconds; a key with 2 recorded timestamps is allowed and now is
appended. -/
theorem C3_admit_witness :
    checkEnhancedRateLimit true 1000 (List.replicate 100 0) =
      ({ allowed := false, retryAfter := some 899, effLimit := 5 },
        List.replicate 100 0) ∧
    checkEnhancedRateLimit true 1000 [0, 500] =
      ({ allowed := true, effLimit := 100 }, [0, 500, 1000]) := by
  constructor
  · rw [(C3_admit_prunes_limits_records 1000 (List.replicate 100 0)).1 (by decide)]
    decide
  · rw [(C3_admit_prunes_limits_records 1000 [0, 500]).2 (by decide)]
    decide

/-- Claim C4 counterexample: one key making 81 admission attempts within
the window (at times 0,1,...,80) has its 81st attempt rejected, but with
an effective limit of 20, not 5: rejected attempts are never recorded,
so the stored list stops growing at 51 entries and the over-80 tier is
never reached. -/
theorem C4_counterexample :
    ((simulateCalls true (List.range 81) []).2.getLastD { allowed := true }).allowed
        = false ∧
    ((simulateCalls true (List.range 81) []).2.getLastD { allowed := true }).effLimit
        = 20 ∧
    ¬ ((simulateCalls true (List.range 81) []).2.getLastD { allowed := true }).effLimit
        = 5 := by
  decide

/-- Claim C4 (amended): for a key making 81 admission attempts within the
window, attempts 52 through 81 (hence in particular the 81st) are
rejected with an effective limit of 20, the first 51 are allowed, and
once the window has elapsed with no further input from the key, the
periodic sweep evicts its record from the connections map. -/
theorem C4_amended_throttle_and_eviction
    (now : Nat) (conns : List (String × List Nat)) (ip : String)
    (h : ∀ p ∈ conns, p.1 = ip → ∀ t ∈ p.2, RATE_WINDOW ≤ now - t) :
    (((simulateCalls true (List.range 81) []).2.take 51).all
        (fun r => r.allowed) = true) ∧
    (((simulateCalls true (List.range 81) []).2.drop 51).all
        (fun r => !r.allowed && r.effLimit == 20) = true) ∧
    ∀ ts, (ip, ts) ∉ cleanupConnections now conns := by
  refine ⟨by decide, by decide, ?_⟩
  intro ts hmem
  unfold cleanupConnections at hmem
  rw [List.mem_filter] at hmem
  obtain ⟨hmap, hne⟩ := hmem
  rw [List.mem_map] at hmap
  obtain ⟨⟨k, l⟩, hkl, heq⟩ := hmap
  have hk : k = ip := congrArg Prod.fst heq
  have hts : l.filter (fun time => now - time < RATE_WINDOW) = ts :=
    congrArg Prod.snd heq
  have hempty : l.filter (fun time => now - time < RATE_WINDOW) = [] := by
    rw [List.filter_eq_nil_iff]
    intro t ht
    have := h (k, l) hkl hk t ht
    simp only [decide_eq_true_eq]
    omega
  rw [hts] at hempty
  subst hempty
  simp at hne

/-- Witness for the amended C4: the concrete throttle facts, and a key
whose single recorded timestamp is a full window old is evicted by the
sweep. -/
theorem C4_amended_witness :
    (((simulateCalls true (List.range 81) []).2.take 51).all
        (fun r => r.allowed) = true) ∧
    (((simulateCalls true (List.range 81) []).2.drop 51).all
        (fun r => !r.allowed && r.effLimit == 20) = true) ∧
    ∀ ts, ("k", ts) ∉ cleanupConnections 900000 [("k", [0])] :=
  C4_amended_throttle_and_eviction 900000 [("k", [0])] "k" (by decide)

/-- Claim C10: outside production the admit check unconditionally allows
every call, touching nothing: a single call returns allowed with the
stored list unchanged, and any sequence of calls leaves the stored list
exactly as it started with every result allowed (no pruning, no
recording, no rejection). -/
theorem C10_dev_mode_always_allows (now : Nat) (stored : List Nat) (times : List Nat) :
    checkEnhancedRateLimit false now stored = ({ allowed := true }, stored) ∧
    (simulateCalls false times stored).1 = stored ∧
    ∀ r ∈ (simulateCalls false times stored).2, r = { allowed := true } := by
  refine ⟨rfl, ?_⟩
  induction times generalizing stored with
  | nil =>
    exact ⟨rfl, fun r hr => absurd hr (List.not_mem_nil r)⟩
  | cons t ts ih =>
    obtain ⟨ih1, ih2⟩ := ih stored
    refine ⟨ih1, ?_⟩
    intro r hr
    rcases List.mem_cons.mp hr with h1 | h2
    · exact h1
    · exact ih2 r h2

/-- Witness for C10: three development-mode calls against a stored list
leave it untouched and the first result is a plain allow. -/
theorem C10_dev_mode_witness :
    checkEnhancedRateLimit false 5 [1, 2] = ({ allowed := true }, [1, 2]) ∧
    (simulateCalls false [3, 4] [1, 2]).1 = [1, 2] ∧
    (simulateCalls false [3, 4] [1, 2]).2.headD { allowed := true } =
      { allowed := true } := by
  obtain ⟨h1, h2, h3⟩ := C10_dev_mode_always_allows 5 [1, 2] [3, 4]
  exact ⟨h1, h2, h3 ((simulateCalls false [3, 4] [1, 2]).2.headD { allowed := true })
    (by decide)⟩

/-! ## Session state (src/server.js, the rooms and userMap tables, lines 44-45)

JS Map becomes an association list whose get returns the first matching
entry, whose set overwrites the entry in place when the key is present
and appends otherwise, and whose delete drops matching entries; JS Set
becomes an insertion-ordered list where add appends a missing element
and delete filters it out. -/

def mapGet {α : Type} : List (String × α) → String → Option α
  | [], _ => none
  | p :: rest, k => if p.1 = k then some p.2 else mapGet rest k

def mapSet {α : Type} (m : List (String × α)) (k : String) (v : α) :
    List (String × α) :=
  if (mapGet m k).isSome then
    m.map (fun p => if p.1 = k then (k, v) else p)
  else m ++ [(k, v)]

def mapDelete {α : Type} (m : List (String × α)) (k : String) :
    List (String × α) :=
  m.filter (fun p => p.1 ≠ k)

def setAdd (s : List String) (x : String) : List String :=
  if x ∈ s then s else s ++ [x]

def setDelete (s : List String) (x : String) : List String :=
  s.filter (fun y => y ≠ x)

/-- Per-connection record of the userMap table: the room the connection
belongs to, its nickname and its join time (src/server.js line 342). -/
structure UserInfo where
  roomId : String
  nickname : String
  joinedAt : Nat
  deriving Repr, DecidableEq

/-- A room record as created at src/server.js lines 308-313. -/
structure Room where
  users : List String
  host : String
  created : Nat
  maxUsers : Nat
  deriving Repr, DecidableEq

/-- The two RAM tables of src/server.js lines 44-45. -/
structure ServerState where
  rooms : List (String × Room)
  userMap : List (String × UserInfo)
  deriving Repr, DecidableEq

/-! ## Input validation (src/server.js, validateAndSanitizeInput, lines 67-97) -/

def isRoomIdChar (c : Char) : Bool :=
  c.isAlpha || c.isDigit || c = '-' || c = '_'

def isWordChar (c : Char) : Bool :=
  c.isAlpha || c.isDigit || c = '_'

def isSpaceChar (c : Char) : Bool :=
  c = ' ' || c = '\t' || c = '\n' || c = '\r'

def isNicknameChar (c : Char) : Bool :=
  isWordChar c || isSpaceChar c || c = '-'

structure JoinInput where
  roomId : String
  nickname : String
  deriving Repr, DecidableEq

/-- Validation half of validateAndSanitizeInput: the accumulated error
message list (empty means the input passes). -/
def validationErrors (data : JoinInput) : List String :=
  (if data.roomId = "" then ["Room ID is required"]
   else if data.roomId.length > 50 then ["Room ID too long (max 50 characters)"]
   else if !(data.roomId.toList.all isRoomIdChar) then
     ["Room ID contains invalid characters"]
   else []) ++
  (if data.nickname = "" then ["Nickname is required"]
   else if data.nickname.length < 2 then ["Nickname too short (min 2 characters)"]
   else if data.nickname.length > 20 then ["Nickname too long (max 20 characters)"]
   else if !(data.nickname.toList.all isNicknameChar) then
     ["Nickname contains invalid characters"]
   else [])

/-- Collapse every whitespace run to one space, the replace of
src/server.js line 93 over an already trimmed string. -/
def collapseWs : List Char → List Char
  | [] => []
  | [c] => [if isSpaceChar c then ' ' else c]
  | c1 :: c2 :: cs =>
    if isSpaceChar c1 && isSpaceChar c2 then collapseWs (c2 :: cs)
    else (if isSpaceChar c1 then ' ' else c1) :: collapseWs (c2 :: cs)

/-- JS String.prototype.trim: strip leading and trailing whitespace. -/
def jsTrim (s : String) : String :=
  ⟨((s.toList.dropWhile isSpaceChar).reverse.dropWhile isSpaceChar).reverse⟩

/-- JS String.prototype.toLowerCase on the ASCII range the validated
inputs are drawn from. -/
def jsToLower (s : String) : String :=
  ⟨s.toList.map Char.toLower⟩

/-- Sanitization half of validateAndSanitizeInput (lines 91-94): trim
and lowercase the room id, trim the nickname and collapse its inner
whitespace. -/
def sanitizedInput (data : JoinInput) : JoinInput :=
  { roomId := jsToLower (jsTrim data.roomId)
    nickname := ⟨collapseWs (jsTrim data.nickname).toList⟩ }

/-- checkDuplicateNickname from src/server.js lines 100-112. -/
def checkDuplicateNickname (rooms : List (String × Room))
    (userMap : List (String × UserInfo)) (roomId nickname : String)
    (excludeSocketId : Option String) : Bool :=
  match mapGet rooms roomId with
  | none => false
  | some room =>
    room.users.any (fun socketId =>
      if some socketId = excludeSocketId then false
      else
        match mapGet userMap socketId with
        | some user => jsToLower user.nickname = jsToLower nickname
        | none => false)

/-! ## Server events

One constructor per socket emission the modelled handlers perform. -/

inductive JoinErrorKind
  | validationFailed (details : List String)
  | alreadyInRoom (currentRoom : String)
  | roomFull (maxUsers currentUsers : Nat)
  | nicknameTaken
  deriving Repr, DecidableEq

inductive KickErrorKind
  | invalidKickRequest
  | unauthorized
  | selfKick
  | userNotInRoom
  deriving Repr, DecidableEq

/-- One entry of the static relay-server list getIceServers returns
(src/server.js lines 24-41). -/
structure IceServer where
  urls : String
  username : Option String := none
  credential : Option String := none
  deriving Repr, DecidableEq

/-- getIceServers from src/server.js lines 24-41: two STUN entries and
the static TURN and TURNS credentials. -/
def getIceServers : List IceServer :=
  [{ urls := "stun:stun1.l.google.com:19302" },
   { urls := "stun:stun2.l.google.com:19302" },
   { urls := "turn:185.117.154.193:3478", username := some "nearsnap",
     credential := some "nearsnap123" },
   { urls := "turns:185.117.154.193:5349", username := some "nearsnap",
     credential := some "nearsnap123" }]

inductive ServerEvent
  | joinError (dest : String) (kind : JoinErrorKind)
  | existingUsersEvt (dest : String) (users : List String) (isHost : Bool)
      (iceServers : List IceServer)
      (roomId : String) (created userCount maxUsers : Nat)
  | userJoinedEvt (roomId socketId nickname : String)
      (iceServers : List IceServer) (joinedAt : Nat)
  | roomJoinedEvt (dest roomId nickname : String) (isHost : Bool)
      (iceServers : List IceServer) (userCount : Nat)
  | hostTransferredEvt (dest : String)
  | newHostEvt (roomId hostId : String)
  | userLeftEvt (roomId socketId : String)
  | kickError (dest : String) (kind : KickErrorKind)
  | kickedEvt (dest reason hostNickname : String)
  | userKickedEvt (roomId kickedNickname hostNickname reason : String)
  deriving Repr, DecidableEq

/-! ## The join-room handler (src/server.js lines 278-396) -/

def joinRoom (st : ServerState) (socketId : String) (data : JoinInput) (now : Nat) :
    ServerState × List ServerEvent :=
  let errs := validationErrors data
  if errs ≠ [] then
    (st, [.joinError socketId (.validationFailed errs)])
  else
    let roomId := (sanitizedInput data).roomId
    let nickname := (sanitizedInput data).nickname
    match mapGet st.userMap socketId with
    | some existingUser =>
      (st, [.joinError socketId (.alreadyInRoom existingUser.roomId)])
    | none =>
      let rooms1 :=
        if (mapGet st.rooms roomId).isSome then st.rooms
        else mapSet st.rooms roomId
          { users := [], host := socketId, created := now, maxUsers := 10 }
      match mapGet rooms1 roomId with
      | none => (st, [])
      | some room =>
        if room.maxUsers ≤ room.users.length then
          (⟨rooms1, st.userMap⟩,
            [.joinError socketId (.roomFull room.maxUsers room.users.length)])
        else if checkDuplicateNickname rooms1 st.userMap roomId nickname
            (some socketId) then
          (⟨rooms1, st.userMap⟩, [.joinError socketId .nicknameTaken])
        else
          let room2 := { room with users := setAdd room.users socketId }
          let rooms2 := mapSet rooms1 roomId room2
          let userMap2 := mapSet st.userMap socketId
            { roomId := roomId, nickname := nickname, joinedAt := now }
          let existingUsers := room2.users.filter (fun id => id ≠ socketId)
          (⟨rooms2, userMap2⟩,
            [.existingUsersEvt socketId existingUsers (room2.host = socketId)
               getIceServers roomId room2.created room2.users.length room2.maxUsers,
             .userJoinedEvt roomId socketId nickname getIceServers now,
             .roomJoinedEvt socketId roomId nickname (room2.host = socketId)
               getIceServers room2.users.length])

/-! ## The disconnect handler (src/server.js lines 715-753) -/

def disconnect (st : ServerState) (socketId : String) :
    ServerState × List ServerEvent :=
  match mapGet st.userMap socketId with
  | none => (st, [])
  | some user =>
    match mapGet st.rooms user.roomId with
    | none => (⟨st.rooms, mapDelete st.userMap socketId⟩, [])
    | some room =>
      let users1 := setDelete room.users socketId
      let newHostOpt : Option String :=
        if room.host = socketId ∧ 0 < users1.length then users1.head? else none
      let transferEvents : List ServerEvent :=
        match newHostOpt with
        | some h => [.hostTransferredEvt h, .newHostEvt user.roomId h]
        | none => []
      if users1.length = 0 then
        (⟨mapDelete st.rooms user.roomId, mapDelete st.userMap socketId⟩,
          transferEvents)
      else
        (⟨mapSet st.rooms user.roomId
            { room with users := users1, host := newHostOpt.getD room.host },
          mapDelete st.userMap socketId⟩,
          transferEvents ++ [.userLeftEvt user.roomId socketId])

/-! ## The kick-user handler (src/server.js lines 610-684)

The handler never mutates the tables: it notifies the target and the
room and schedules a later forced disconnect, which then runs the
disconnect handler above. -/

def kickUser (st : ServerState) (socketId : String)
    (targetSocketId : Option String) (reason : Option String) :
    ServerState × List ServerEvent :=
  match mapGet st.userMap socketId, targetSocketId with
  | none, _ => (st, [.kickError socketId .invalidKickRequest])
  | _, none => (st, [.kickError socketId .invalidKickRequest])
  | some user, some target =>
    if target = "" then (st, [.kickError socketId .invalidKickRequest])
    else
      match mapGet st.rooms user.roomId with
      | none => (st, [.kickError socketId .unauthorized])
      | some room =>
        if ¬ room.host = socketId then
          (st, [.kickError socketId .unauthorized])
        else if target = socketId then
          (st, [.kickError socketId .selfKick])
        else
          match mapGet st.userMap target with
          | none => (st, [.kickError socketId .userNotInRoom])
          | some targetUser =>
            if ¬ targetUser.roomId = user.roomId then
              (st, [.kickError socketId .userNotInRoom])
            else
              (st, [.kickedEvt target (reason.getD "Kicked by room host")
                      user.nickname,
                    .userKickedEvt user.roomId targetUser.nickname user.nickname
                      (reason.getD "No reason provided")])

/-! ## Lemmas about the map and set embeddings -/

theorem mapGet_mem {α : Type} : ∀ {m : List (String × α)} {k : String} {v : α},
    mapGet m k = some v → (k, v) ∈ m
  | [], _, _, h => by simp [mapGet] at h
  | p :: rest, k, v, h => by
    rw [mapGet] at h
    by_cases hk : p.1 = k
    · rw [if_pos hk] at h
      obtain rfl : p.2 = v := Option.some.inj h
      exact List.mem_cons.mpr (Or.inl (by rw [← hk]))
    · rw [if_neg hk] at h
      exact List.mem_cons.mpr (Or.inr (mapGet_mem h))

theorem mapGet_none {α : Type} : ∀ {m : List (String × α)} {k : String},
    mapGet m k = none → ∀ p ∈ m, p.1 ≠ k
  | [], _, _, p, hp => absurd hp (List.not_mem_nil p)
  | q :: rest, k, h, p, hp => by
    rw [mapGet] at h
    by_cases hk : q.1 = k
    · rw [if_pos hk] at h
      cases h
    · rw [if_neg hk] at h
      rcases List.mem_cons.mp hp with rfl | hmem
      · exact hk
      · exact mapGet_none h p hmem

theorem mem_mapSet {α : Type} {m : List (String × α)} {k : String} {v : α}
    {p : String × α} (h : p ∈ mapSet m k v) : (p ∈ m ∧ p.1 ≠ k) ∨ p = (k, v) := by
  unfold mapSet at h
  by_cases hs : (mapGet m k).isSome
  · rw [if_pos hs] at h
    rcases List.mem_map.mp h with ⟨q, hq, hfq⟩
    by_cases hk : q.1 = k
    · right
      rw [if_pos hk] at hfq
      exact hfq.symm
    · left
      rw [if_neg hk] at hfq
      subst hfq
      exact ⟨hq, hk⟩
  · rw [if_neg hs] at h
    rcases List.mem_append.mp h with hmem | hone
    · left
      exact ⟨hmem, mapGet_none (Option.not_isSome_iff_eq_none.mp hs) p hmem⟩
    · right
      simpa using hone

theorem mapGet_append_none {α : Type} : ∀ {m : List (String × α)} {k : String},
    mapGet m k = none → ∀ (l : List (String × α)), mapGet (m ++ l) k = mapGet l k
  | [], _, _, _ => rfl
  | q :: rest, k, h, l => by
    rw [mapGet] at h
    by_cases hk : q.1 = k
    · rw [if_pos hk] at h
      cases h
    · rw [if_neg hk] at h
      show mapGet (q :: (rest ++ l)) k = mapGet l k
      rw [mapGet, if_neg hk]
      exact mapGet_append_none h l

theorem mapGet_map_replace {α : Type} {k : String} {v : α} :
    ∀ {m : List (String × α)}, (mapGet m k).isSome →
      mapGet (m.map (fun p => if p.1 = k then (k, v) else p)) k = some v
  | [], h => by simp [mapGet] at h
  | q :: rest, h => by
    by_cases hk : q.1 = k
    · show mapGet ((if q.1 = k then (k, v) else q) :: _) k = some v
      rw [if_pos hk, mapGet, if_pos rfl]
    · show mapGet ((if q.1 = k then (k, v) else q) :: _) k = some v
      rw [if_neg hk, mapGet, if_neg hk]
      apply mapGet_map_replace
      rw [mapGet, if_neg hk] at h
      exact h

theorem mapGet_mapSet_self {α : Type} (m : List (String × α)) (k : String) (v : α) :
    mapGet (mapSet m k v) k = some v := by
  unfold mapSet
  by_cases hs : (mapGet m k).isSome
  · rw [if_pos hs]
    exact mapGet_map_replace hs
  · rw [if_neg hs]
    rw [mapGet_append_none (Option.not_isSome_iff_eq_none.mp hs), mapGet, if_pos rfl]

theorem mem_mapDelete {α : Type} {m : List (String × α)} {k : String}
    {p : String × α} (h : p ∈ mapDelete m k) : p ∈ m := by
  unfold mapDelete at h
  exact (List.mem_filter.mp h).1

theorem mem_setAdd_of_mem {s : List String} {x y : String} (h : y ∈ s) :
    y ∈ setAdd s x := by
  unfold setAdd
  split
  · exact h
  · exact List.mem_append.mpr (Or.inl h)

theorem mem_setAdd_self (s : List String) (x : String) : x ∈ setAdd s x := by
  unfold setAdd
  split
  · assumption
  · exact List.mem_append.mpr (Or.inr (List.mem_singleton.mpr rfl))

theorem length_setAdd_le (s : List String) (x : String) :
    (setAdd s x).length ≤ s.length + 1 := by
  unfold setAdd
  split
  · exact Nat.le_succ_of_le (Nat.le_refl _)
  · simp

theorem mem_setDelete {s : List String} {x y : String} :
    y ∈ setDelete s x ↔ y ∈ s ∧ y ≠ x := by
  simp [setDelete, List.mem_filter]

/-! ## The host invariant (claim C1) -/

/-- In every stored room, the host id is one of the member ids. -/
def hostInvariant (st : ServerState) : Prop :=
  ∀ p ∈ st.rooms, p.2.host ∈ p.2.users

/-- The room record a join request creates when the room is absent
(src/server.js lines 308-313). -/
def freshRoom (socketId : String) (now : Nat) : Room :=
  { users := [], host := socketId, created := now, maxUsers := 10 }

theorem joinRoom_hostInvariant {st : ServerState} (h : hostInvariant st)
    (socketId : String) (data : JoinInput) (now : Nat) :
    hostInvariant (joinRoom st socketId data now).1 := by
  simp only [joinRoom]
  split
  · exact h
  · split
    · exact h
    · by_cases hex : (mapGet st.rooms (sanitizedInput data).roomId).isSome
      · rw [if_pos hex]
        split
        · exact h
        · next room hroom =>
          split
          · exact h
          · split
            · exact h
            · intro p hp
              rcases mem_mapSet hp with ⟨hmem, _⟩ | rfl
              · exact h p hmem
              · exact mem_setAdd_of_mem (h _ (mapGet_mem hroom))
      · rw [if_neg hex]
        split
        · exact h
        · next room hroom =>
          obtain rfl : freshRoom socketId now = room :=
            Option.some.inj ((mapGet_mapSet_self st.rooms
              (sanitizedInput data).roomId (freshRoom socketId now)).symm.trans hroom)
          split
          · next hfull => simp [freshRoom] at hfull
          · split
            · next hdup =>
              unfold checkDuplicateNickname at hdup
              rw [mapGet_mapSet_self] at hdup
              simp [freshRoom] at hdup
            · intro p hp
              rcases mem_mapSet hp with ⟨hmem, hne⟩ | rfl
              · rcases mem_mapSet hmem with ⟨hmem2, _⟩ | rfl
                · exact h p hmem2
                · exact absurd rfl hne
              · simp only [freshRoom]
                exact mem_setAdd_self [] socketId

theorem disconnect_hostInvariant {st : ServerState} (h : hostInvariant st)
    (socketId : String) :
    hostInvariant (disconnect st socketId).1 := by
  simp only [disconnect]
  split
  · exact h
  · next user huser =>
    split
    · exact h
    · next room hroom =>
      split
      · intro p hp
        exact h p (mem_mapDelete hp)
      · next hne =>
        intro p hp
        rcases mem_mapSet hp with ⟨hmem, _⟩ | rfl
        · exact h p hmem
        · by_cases hc : room.host = socketId ∧ 0 < (setDelete room.users socketId).length
          · rw [if_pos hc]
            rcases List.exists_cons_of_ne_nil
                (List.length_pos_iff_ne_nil.mp hc.2) with ⟨hd, tl, heq⟩
            simp only [heq, List.head?, Option.getD]
            rw [← heq]
            rw [heq]
            exact List.mem_cons_self hd tl
          · rw [if_neg hc]
            simp only [Option.getD]
            have hmem0 : room.host ∈ room.users := h _ (mapGet_mem hroom)
            have hhost : room.host ≠ socketId := by
              intro hcontra
              exact hc ⟨hcontra, Nat.pos_of_ne_zero hne⟩
            exact mem_setDelete.mpr ⟨hmem0, hhost⟩

theorem kickUser_state_eq (st : ServerState) (socketId : String)
    (targetSocketId : Option String) (reason : Option String) :
    (kickUser st socketId targetSocketId reason).1 = st := by
  unfold kickUser
  split
  · rfl
  · rfl
  · split
    · rfl
    · split
      · rfl
      · split
        · rfl
        · split
          · rfl
          · split
            · rfl
            · split
              · rfl
              · rfl

/-- Claim C1: for every room, the host invariant holds: after every
successful join operation (and in fact after every join attempt), after
every disconnect (leave) operation, and after every kick operation, the
room host id is a member of that room member set, provided it was before. -/
theorem C1_host_is_member (st : ServerState) (h : hostInvariant st) :
    (∀ socketId data now, hostInvariant (joinRoom st socketId data now).1) ∧
    (∀ socketId, hostInvariant (disconnect st socketId).1) ∧
    (∀ socketId targetSocketId reason,
      hostInvariant (kickUser st socketId targetSocketId reason).1) :=
  ⟨fun socketId data now => joinRoom_hostInvariant h socketId data now,
   fun socketId => disconnect_hostInvariant h socketId,
   fun socketId targetSocketId reason => by
     rw [kickUser_state_eq st socketId targetSocketId reason]
     exact h⟩

/-! ## Host transfer on disconnect (claim C8) -/

/-- Join time of a member id as recorded in the userMap table. -/
def memberJoinedAt (st : ServerState) (socketId : String) : Nat :=
  ((mapGet st.userMap socketId).map UserInfo.joinedAt).getD 0

/-- Recognizer for the broadcast naming the new host (the new-host
emission of src/server.js line 735). -/
def isNewHostEvt : ServerEvent → Bool
  | .newHostEvt _ _ => true
  | _ => false

/-- Claim C8: when the host of a room disconnects and at least one
member remains, exactly one new-host event is produced, it names the
head of the remaining member list, which (under the invariant that the
member list is ordered by recorded join time) is the earliest-joined
remaining member, that member is still present in the stored room, and
the same member is first notified privately. -/
theorem C8_host_transfer (st : ServerState) (socketId : String) (user : UserInfo)
    (room : Room)
    (hu : mapGet st.userMap socketId = some user)
    (hr : mapGet st.rooms user.roomId = some room)
    (hhost : room.host = socketId)
    (hne : setDelete room.users socketId ≠ [])
    (hsorted : room.users.Pairwise
      (fun a b => memberJoinedAt st a ≤ memberJoinedAt st b)) :
    ∃ newHost,
      (setDelete room.users socketId).head? = some newHost ∧
      (disconnect st socketId).2 =
        [.hostTransferredEvt newHost, .newHostEvt user.roomId newHost,
         .userLeftEvt user.roomId socketId] ∧
      ((disconnect st socketId).2.filter isNewHostEvt).length = 1 ∧
      newHost ∈ setDelete room.users socketId ∧
      (∀ m ∈ setDelete room.users socketId,
        memberJoinedAt st newHost ≤ memberJoinedAt st m) ∧
      mapGet (disconnect st socketId).1.rooms user.roomId =
        some { room with users := setDelete room.users socketId,
                         host := newHost } := by
  obtain ⟨hd, tl, heq⟩ := List.exists_cons_of_ne_nil hne
  have hdisc : disconnect st socketId =
      (⟨mapSet st.rooms user.roomId { room with users := hd :: tl, host := hd },
        mapDelete st.userMap socketId⟩,
       [.hostTransferredEvt hd, .newHostEvt user.roomId hd,
        .userLeftEvt user.roomId socketId]) := by
    simp [disconnect, hu, hr, hhost, heq]
  refine ⟨hd, ?_, ?_, ?_, ?_, ?_, ?_⟩
  · rw [heq]
    rfl
  · rw [hdisc]
  · rw [hdisc]
    rfl
  · rw [heq]
    exact List.mem_cons_self hd tl
  · intro m hm
    have hpw : (hd :: tl).Pairwise
        (fun a b => memberJoinedAt st a ≤ memberJoinedAt st b) := by
      rw [← heq]
      exact hsorted.filter _
    rw [heq] at hm
    rcases List.mem_cons.mp hm with rfl | hmem
    · exact Nat.le_refl _
    · exact (List.pairwise_cons.mp hpw).1 m hmem
  · rw [hdisc]
    show mapGet (mapSet st.rooms user.roomId _) user.roomId = _
    rw [mapGet_mapSet_self, heq]

/-- Witness for C8: the host of a three-member room disconnects; the
earliest-joined remaining member b becomes host, is notified privately,
and exactly one new-host broadcast names it. -/
theorem C8_host_transfer_witness :
    ∃ newHost,
      (setDelete ["a", "b", "c"] "a").head? = some newHost ∧
      (disconnect ⟨[("r1", ⟨["a", "b", "c"], "a", 0, 10⟩)],
          [("a", ⟨"r1", "alice", 0⟩), ("b", ⟨"r1", "bob", 1⟩),
           ("c", ⟨"r1", "carol", 2⟩)]⟩ "a").2 =
        [.hostTransferredEvt newHost, .newHostEvt "r1" newHost,
         .userLeftEvt "r1" "a"] ∧
      ((disconnect ⟨[("r1", ⟨["a", "b", "c"], "a", 0, 10⟩)],
          [("a", ⟨"r1", "alice", 0⟩), ("b", ⟨"r1", "bob", 1⟩),
           ("c", ⟨"r1", "carol", 2⟩)]⟩ "a").2.filter isNewHostEvt).length = 1 ∧
      newHost ∈ setDelete ["a", "b", "c"] "a" ∧
      (∀ m ∈ setDelete ["a", "b", "c"] "a",
        memberJoinedAt ⟨[("r1", ⟨["a", "b", "c"], "a", 0, 10⟩)],
          [("a", ⟨"r1", "alice", 0⟩), ("b", ⟨"r1", "bob", 1⟩),
           ("c", ⟨"r1", "carol", 2⟩)]⟩ newHost ≤
        memberJoinedAt ⟨[("r1", ⟨["a", "b", "c"], "a", 0, 10⟩)],
          [("a", ⟨"r1", "alice", 0⟩), ("b", ⟨"r1", "bob", 1⟩),
           ("c", ⟨"r1", "carol", 2⟩)]⟩ m) ∧
      mapGet (disconnect ⟨[("r1", ⟨["a", "b", "c"], "a", 0, 10⟩)],
          [("a", ⟨"r1", "alice", 0⟩), ("b", ⟨"r1", "bob", 1⟩),
           ("c", ⟨"r1", "carol", 2⟩)]⟩ "a").1.rooms "r1" =
        some ⟨setDelete ["a", "b", "c"] "a", newHost, 0, 10⟩ :=
  C8_host_transfer
    ⟨[("r1", ⟨["a", "b", "c"], "a", 0, 10⟩)],
      [("a", ⟨"r1", "alice", 0⟩), ("b", ⟨"r1", "bob", 1⟩),
       ("c", ⟨"r1", "carol", 2⟩)]⟩
    "a" ⟨"r1", "alice", 0⟩ ⟨["a", "b", "c"], "a", 0, 10⟩
    (by decide) (by decide) (by decide) (by decide) (by decide)

/-! ## The capacity invariant (claim C2) -/

/-- In every stored room, the member count is at most the room capacity. -/
def capacityInvariant (st : ServerState) : Prop :=
  ∀ p ∈ st.rooms, p.2.users.length ≤ p.2.maxUsers

theorem joinRoom_capacityInvariant {st : ServerState} (h : capacityInvariant st)
    (socketId : String) (data : JoinInput) (now : Nat) :
    capacityInvariant (joinRoom st socketId data now).1 := by
  simp only [joinRoom]
  split
  · exact h
  · split
    · exact h
    · by_cases hex : (mapGet st.rooms (sanitizedInput data).roomId).isSome
      · rw [if_pos hex]
        split
        · exact h
        · next room hroom =>
          split
          · exact h
          · next hnotfull =>
            split
            · exact h
            · intro p hp
              rcases mem_mapSet hp with ⟨hmem, _⟩ | rfl
              · exact h p hmem
              · have h1 := length_setAdd_le room.users socketId
                show (setAdd room.users socketId).length ≤ room.maxUsers
                omega
      · rw [if_neg hex]
        split
        · exact h
        · next room hroom =>
          obtain rfl : freshRoom socketId now = room :=
            Option.some.inj ((mapGet_mapSet_self st.rooms
              (sanitizedInput data).roomId (freshRoom socketId now)).symm.trans hroom)
          split
          · intro p hp
            rcases mem_mapSet hp with ⟨hmem, _⟩ | rfl
            · exact h p hmem
            · simp [freshRoom]
          · split
            · intro p hp
              rcases mem_mapSet hp with ⟨hmem, _⟩ | rfl
              · exact h p hmem
              · simp [freshRoom]
            · intro p hp
              rcases mem_mapSet hp with ⟨hmem, hne⟩ | rfl
              · rcases mem_mapSet hmem with ⟨hmem2, _⟩ | rfl
                · exact h p hmem2
                · simp [freshRoom]
              · simp [freshRoom, setAdd]

theorem disconnect_capacityInvariant {st : ServerState} (h : capacityInvariant st)
    (socketId : String) :
    capacityInvariant (disconnect st socketId).1 := by
  simp only [disconnect]
  split
  · exact h
  · split
    · exact h
    · next room hroom =>
      split
      · intro p hp
        exact h p (mem_mapDelete hp)
      · intro p hp
        rcases mem_mapSet hp with ⟨hmem, _⟩ | rfl
        · exact h p hmem
        · have h1 : (setDelete room.users socketId).length ≤ room.users.length :=
            List.length_filter_le _ _
          have h2 : room.users.length ≤ room.maxUsers := h _ (mapGet_mem hroom)
          show (setDelete room.users socketId).length ≤ room.maxUsers
          omega

/-- Claim C2: for every room, the member count never exceeds the room
capacity (10 for every room the join handler creates): the bound is
preserved by join, disconnect and kick, and a join attempt against a
room already at capacity emits the ROOM_FULL error carrying the maximum
and current member counts and leaves the state untouched. -/
theorem C2_capacity_bound_and_room_full (st : ServerState)
    (h : capacityInvariant st) :
    (∀ socketId data now, capacityInvariant (joinRoom st socketId data now).1) ∧
    (∀ socketId, capacityInvariant (disconnect st socketId).1) ∧
    (∀ socketId targetSocketId reason,
        capacityInvariant (kickUser st socketId targetSocketId reason).1) ∧
    (∀ socketId data now room,
        validationErrors data = [] →
        mapGet st.userMap socketId = none →
        mapGet st.rooms (sanitizedInput data).roomId = some room →
        room.maxUsers ≤ room.users.length →
        joinRoom st socketId data now =
          (st, [.joinError socketId (.roomFull room.maxUsers room.users.length)])) := by
  refine ⟨fun socketId data now => joinRoom_capacityInvariant h socketId data now,
    fun socketId => disconnect_capacityInvariant h socketId,
    fun socketId targetSocketId reason => by
      rw [kickUser_state_eq st socketId targetSocketId reason]; exact h,
    ?_⟩
  intro socketId data now room hv hu hr hfull
  simp [joinRoom, hv, hu, hr, hfull]

/-- Witness for C2: a room holding its full 10 members rejects an 11th
join with ROOM_FULL carrying 10 and 10, and the state is unchanged. -/
theorem C2_capacity_witness :
    joinRoom
      ⟨[("r1", ⟨["u0", "u1", "u2", "u3", "u4", "u5", "u6", "u7", "u8", "u9"],
          "u0", 0, 10⟩)], []⟩ "b" ⟨"r1", "bob"⟩ 7 =
      (⟨[("r1", ⟨["u0", "u1", "u2", "u3", "u4", "u5", "u6", "u7", "u8", "u9"],
          "u0", 0, 10⟩)], []⟩,
        [.joinError "b" (.roomFull 10 10)]) :=
  (C2_capacity_bound_and_room_full _ (by unfold capacityInvariant; decide)).2.2.2
    "b" ⟨"r1", "bob"⟩ 7
    ⟨["u0", "u1", "u2", "u3", "u4", "u5", "u6", "u7", "u8", "u9"], "u0", 0, 10⟩
    (by decide) (by decide) (by decide) (by decide)

/-- Witness for C1: starting from the empty state, a join creating a
room keeps the host a member, and so does a later disconnect and kick. -/
theorem C1_host_is_member_witness :
    hostInvariant (joinRoom ⟨[], []⟩ "a" ⟨"r1", "alice"⟩ 0).1 ∧
    hostInvariant (disconnect ⟨[("r1", ⟨["a"], "a", 0, 10⟩)],
      [("a", ⟨"r1", "alice", 0⟩)]⟩ "a").1 ∧
    hostInvariant (kickUser ⟨[("r1", ⟨["a"], "a", 0, 10⟩)],
      [("a", ⟨"r1", "alice", 0⟩)]⟩ "a" (some "b") none).1 :=
  ⟨(C1_host_is_member ⟨[], []⟩ (by intro p hp; cases hp)).1 "a" ⟨"r1", "alice"⟩ 0,
   (C1_host_is_member ⟨[("r1", ⟨["a"], "a", 0, 10⟩)], [("a", ⟨"r1", "alice", 0⟩)]⟩
      (by unfold hostInvariant; decide)).2.1 "a",
   (C1_host_is_member ⟨[("r1", ⟨["a"], "a", 0, 10⟩)], [("a", ⟨"r1", "alice", 0⟩)]⟩
      (by unfold hostInvariant; decide)).2.2 "a" (some "b") none⟩

/-! ## Signal relay (src/server.js, the signal handler, lines 399-460) -/

inductive SignalOutcome (α : Type) where
  | invalidSignal
  | userNotFound
  | roomMismatch
  | delivered (dest sender roomId : String) (signal : α) (timestamp : Nat)
  deriving Repr, DecidableEq

/-- The signal handler: `dest` and `signal` are the two fields of the
incoming message (absent or empty ones are falsy), `socketId` the
sender connection.  On success the payload is forwarded to `dest`
untouched, tagged with the sender id, the shared room id and a
timestamp. -/
def signalHandler {α : Type} (st : ServerState) (socketId : String)
    (dest : Option String) (signal : Option α) (now : Nat) : SignalOutcome α :=
  match dest, signal with
  | none, _ => .invalidSignal
  | _, none => .invalidSignal
  | some t, some sig =>
    if t = "" then .invalidSignal
    else
      match mapGet st.userMap t, mapGet st.userMap socketId with
      | none, _ => .userNotFound
      | _, none => .userNotFound
      | some targetUser, some currentUser =>
        if ¬ targetUser.roomId = currentUser.roomId then .roomMismatch
        else .delivered t socketId currentUser.roomId sig now

/-- What, if anything, a relay outcome delivers: destination, sender
tag, room tag and payload. -/
def deliveredPayload {α : Type} : SignalOutcome α → Option (String × String × String × α)
  | .delivered t s r sig _ => some (t, s, r, sig)
  | _ => none

/-- Claim C5: if either id is unknown to the userMap, or the two ids
are registered in different rooms, the signal handler rejects and
delivers nothing; otherwise it delivers the payload unchanged to the
recipient, tagged with the sender id and the shared room id.  In
particular two ids in different rooms always get a rejection. -/
theorem C5_signal_relay {α : Type} (st : ServerState) (socketId t : String)
    (sig : α) (now : Nat) (hne : ¬ t = "") :
    ((mapGet st.userMap t = none ∨ mapGet st.userMap socketId = none) →
      signalHandler st socketId (some t) (some sig) now = .userNotFound ∧
      deliveredPayload (signalHandler st socketId (some t) (some sig) now) = none) ∧
    (∀ targetUser currentUser : UserInfo,
      mapGet st.userMap t = some targetUser →
      mapGet st.userMap socketId = some currentUser →
      ¬ targetUser.roomId = currentUser.roomId →
      signalHandler st socketId (some t) (some sig) now = .roomMismatch ∧
      deliveredPayload (signalHandler st socketId (some t) (some sig) now) = none) ∧
    (∀ targetUser currentUser : UserInfo,
      mapGet st.userMap t = some targetUser →
      mapGet st.userMap socketId = some currentUser →
      targetUser.roomId = currentUser.roomId →
      signalHandler st socketId (some t) (some sig) now =
        .delivered t socketId currentUser.roomId sig now ∧
      deliveredPayload (signalHandler st socketId (some t) (some sig) now) =
        some (t, socketId, currentUser.roomId, sig)) := by
  refine ⟨?_, ?_, ?_⟩
  · intro hnone
    rcases hnone with h1 | h2
    · simp [signalHandler, hne, h1, deliveredPayload]
    · rcases hcase : mapGet st.userMap t with _ | targetUser
      · simp [signalHandler, hne, hcase, deliveredPayload]
      · simp [signalHandler, hne, hcase, h2, deliveredPayload]
  · intro targetUser currentUser h1 h2 hmm
    simp [signalHandler, hne, h1, h2, hmm, deliveredPayload]
  · intro targetUser currentUser h1 h2 hsame
    simp [signalHandler, hne, h1, h2, hsame, deliveredPayload]

/-- Witness for C5: with alice registered in room r1 and bob in room
r2, a signal from alice to bob is rejected with the room mismatch error
and nothing is delivered; with carol also in r1, alice to carol is
delivered unchanged, tagged with alice and r1. -/
theorem C5_signal_relay_witness :
    (signalHandler
      ⟨[], [("a", ⟨"r1", "alice", 0⟩), ("b", ⟨"r2", "bob", 1⟩),
            ("c", ⟨"r1", "carol", 2⟩)]⟩
      "a" (some "b") (some "offer-sdp") 5 = .roomMismatch ∧
     deliveredPayload (signalHandler
      ⟨[], [("a", ⟨"r1", "alice", 0⟩), ("b", ⟨"r2", "bob", 1⟩),
            ("c", ⟨"r1", "carol", 2⟩)]⟩
      "a" (some "b") (some "offer-sdp") 5) = none) ∧
    (signalHandler
      ⟨[], [("a", ⟨"r1", "alice", 0⟩), ("b", ⟨"r2", "bob", 1⟩),
            ("c", ⟨"r1", "carol", 2⟩)]⟩
      "a" (some "c") (some "offer-sdp") 5 =
        .delivered "c" "a" "r1" "offer-sdp" 5 ∧
     deliveredPayload (signalHandler
      ⟨[], [("a", ⟨"r1", "alice", 0⟩), ("b", ⟨"r2", "bob", 1⟩),
            ("c", ⟨"r1", "carol", 2⟩)]⟩
      "a" (some "c") (some "offer-sdp") 5) = some ("c", "a", "r1", "offer-sdp")) :=
  ⟨(C5_signal_relay
      ⟨[], [("a", ⟨"r1", "alice", 0⟩), ("b", ⟨"r2", "bob", 1⟩),
            ("c", ⟨"r1", "carol", 2⟩)]⟩
      "a" "b" "offer-sdp" 5 (by decide)).2.1
      ⟨"r2", "bob", 1⟩ ⟨"r1", "alice", 0⟩ (by decide) (by decide) (by decide),
   (C5_signal_relay
      ⟨[], [("a", ⟨"r1", "alice", 0⟩), ("b", ⟨"r2", "bob", 1⟩),
            ("c", ⟨"r1", "carol", 2⟩)]⟩
      "a" "c" "offer-sdp" 5 (by decide)).2.2
      ⟨"r1", "carol", 2⟩ ⟨"r1", "alice", 0⟩ (by decide) (by decide) (by decide)⟩

/-! ## Client candidate queue (src/public/js/main.js lines 1527-1569) -/

/-- A network candidate; applyOk records whether the underlying
addIceCandidate call would succeed on it. -/
structure Candidate where
  cid : Nat
  applyOk : Bool
  deriving Repr, DecidableEq

/-- The per-peer connection state the candidate logic touches: whether a
remote description has been applied, the pending queue
(this.pendingCandidates of main.js line 223), and the candidates applied
so far, in order. -/
structure PeerLink where
  remoteDescriptionSet : Bool
  pendingCandidates : List Candidate
  appliedCandidates : List Candidate
  deriving Repr, DecidableEq

/-- pc.addIceCandidate: on success the candidate is appended to the
applied list; a failure leaves the link unchanged (every caller catches
the error, logs it and continues). -/
def addIceCandidate (link : PeerLink) (c : Candidate) : PeerLink :=
  if c.applyOk then
    { link with appliedCandidates := link.appliedCandidates ++ [c] }
  else link

/-- RTCManager.handleIceCandidate (main.js lines 1527-1547): apply at
once when the remote description is set, otherwise append to the
pending queue. -/
def handleIceCandidate (link : PeerLink) (c : Candidate) : PeerLink :=
  if link.remoteDescriptionSet then addIceCandidate link c
  else { link with pendingCandidates := link.pendingCandidates ++ [c] }

/-- RTCManager.processPendingCandidates (main.js lines 1550-1569): when
a remote description is set and candidates are queued, attempt each
queued candidate in order, a per-candidate failure being logged and
skipped, then clear the queue. -/
def processPendingCandidates (link : PeerLink) : PeerLink :=
  if link.remoteDescriptionSet ∧ link.pendingCandidates ≠ [] then
    { link.pendingCandidates.foldl addIceCandidate link with
        pendingCandidates := [] }
  else link

/-- Applying a remote description then flushing the queue, as
handleOffer and handleAnswer do (main.js lines 1291-1294 and
1515-1518). -/
def setRemoteDescription (link : PeerLink) : PeerLink :=
  processPendingCandidates { link with remoteDescriptionSet := true }

theorem foldl_addIceCandidate (pending : List Candidate) :
    ∀ link : PeerLink, pending.foldl addIceCandidate link =
      { link with appliedCandidates :=
          link.appliedCandidates ++ pending.filter (fun c => c.applyOk) } := by
  induction pending with
  | nil =>
    intro link
    simp
  | cons c cs ih =>
    intro link
    rw [List.foldl_cons, ih]
    unfold addIceCandidate
    by_cases hc : c.applyOk
    · simp [hc]
    · simp [hc]

/-- Claim C6: a candidate arriving before the remote description is
applied is appended to the ordered pending queue and not applied; once
a remote description is set, the flush empties the queue and applies
exactly the workable queued candidates in original arrival order, a
failing candidate being skipped without aborting the rest. -/
theorem C6_candidate_queue (link : PeerLink) (c : Candidate)
    (hnd : link.remoteDescriptionSet = false) :
    handleIceCandidate link c =
      { link with pendingCandidates := link.pendingCandidates ++ [c] } ∧
    (∀ l2 : PeerLink, l2.remoteDescriptionSet = true →
      processPendingCandidates l2 =
        { l2 with
          appliedCandidates :=
            l2.appliedCandidates ++ l2.pendingCandidates.filter (fun c => c.applyOk)
          pendingCandidates := [] }) := by
  constructor
  · unfold handleIceCandidate
    rw [hnd]
    simp
  · intro l2 h2
    unfold processPendingCandidates
    by_cases hp : l2.pendingCandidates = []
    · rw [if_neg (by simp [hp])]
      rcases l2 with ⟨rd, pend, app⟩
      simp only at hp
      subst hp
      simp
    · rw [if_pos ⟨by rw [h2], hp⟩, foldl_addIceCandidate]

/-- Witness for C6: with no remote description a candidate is queued
untouched; after the remote description is set, flushing a three-deep
queue whose middle candidate fails applies the first and third in order
and clears the queue. -/
theorem C6_candidate_queue_witness :
    handleIceCandidate ⟨false, [⟨0, true⟩], []⟩ ⟨1, false⟩ =
      ⟨false, [⟨0, true⟩, ⟨1, false⟩], []⟩ ∧
    processPendingCandidates ⟨true, [⟨0, true⟩, ⟨1, false⟩, ⟨2, true⟩], []⟩ =
      ⟨true, [], [⟨0, true⟩, ⟨2, true⟩]⟩ := by
  obtain ⟨h1, h2⟩ := C6_candidate_queue ⟨false, [⟨0, true⟩], []⟩ ⟨1, false⟩ rfl
  refine ⟨h1, ?_⟩
  rw [h2 ⟨true, [⟨0, true⟩, ⟨1, false⟩, ⟨2, true⟩], []⟩ rfl]
  decide

/-! ## The existing-users wire format and the client offer rule
(claims C7 and C9)

src/server.js line 348 computes the users field of the existing-users
message as an array of bare socket-id strings, while the handler of
src/public/js/main.js lines 3929-3935 reads user.socketId and
user.nickname from each entry and creates one offer per entry; the
user-joined handler (lines 3938-3951) creates none. -/

inductive WireUser where
  | idString (id : String)
  | userObject (socketId nickname : String)
  deriving Repr, DecidableEq

/-- JS property access user.socketId: an object entry yields its field,
a bare string yields undefined. -/
def wireSocketId : WireUser → Option String
  | .idString _ => none
  | .userObject socketId _ => some socketId

/-- JS property access user.nickname. -/
def wireNickname : WireUser → Option String
  | .idString _ => none
  | .userObject _ nickname => some nickname

/-- Offer targets the existing-users handler produces: one createOffer
per listed entry, toward that entry user.socketId, in list order. -/
def offersOnExistingUsers (users : List WireUser) : List (Option String) :=
  users.map wireSocketId

/-- Offer targets the user-joined handler produces: none (the existing
member waits for the joiner offer). -/
def offersOnUserJoined : List (Option String) := []

/-- The users field of the first existing-users event in an emission
list. -/
def existingUsersPayload : List ServerEvent → Option (List String)
  | [] => none
  | .existingUsersEvt _ users _ _ _ _ _ _ :: _ => some users
  | _ :: rest => existingUsersPayload rest

/-- The scenario of claim C7: participants a, b, c join room r1 in
order, starting from the empty server state. -/
def scenarioA : ServerState × List ServerEvent :=
  joinRoom ⟨[], []⟩ "a" ⟨"r1", "alice"⟩ 0

def scenarioB : ServerState × List ServerEvent :=
  joinRoom scenarioA.1 "b" ⟨"r1", "bob"⟩ 1

def scenarioC : ServerState × List ServerEvent :=
  joinRoom scenarioB.1 "c" ⟨"r1", "carol"⟩ 2

/-- Claim C7, settled on the code: the joiner-side handler creates one
offer per listed entry toward the entry socketId and the user-joined
handler creates none, so with well-formed id/nickname entries the
joiners would initiate exactly b→a, c→a, c→b and never the reverse; on
the actual wire, however, the server lists bare id strings for the
scenario a, b, c joining r1, and reading socketId from those yields no
valid target, so the offers b and c actually create are aimed at
undefined rather than the earlier members. -/
theorem C7_joiner_initiates :
    (∀ entries : List (String × String),
      offersOnExistingUsers (entries.map (fun e => WireUser.userObject e.1 e.2)) =
        entries.map (fun e => some e.1)) ∧
    offersOnUserJoined = [] ∧
    (existingUsersPayload scenarioA.2 = some [] ∧
     existingUsersPayload scenarioB.2 = some ["a"] ∧
     existingUsersPayload scenarioC.2 = some ["a", "b"] ∧
     offersOnExistingUsers (["a"].map WireUser.idString) = [none] ∧
     offersOnExistingUsers (["a", "b"].map WireUser.idString) = [none, none]) := by
  refine ⟨?_, rfl, ?_⟩
  · intro entries
    simp [offersOnExistingUsers, wireSocketId]
  · decide

/-- Claim C9, evaluated at the failing input: after alice occupies r1,
a successful join by bob is answered with an existing-users snapshot
whose users field is the bare id list, so no entry carries a nickname
when decoded the way the client decodes it, although the server has
alice nickname on record. -/
theorem C9_join_snapshot_lacks_nicknames :
    (joinRoom ⟨[("r1", ⟨["a"], "a", 0, 10⟩)], [("a", ⟨"r1", "alice", 0⟩)]⟩
        "b" ⟨"r1", "bob"⟩ 5).2 =
      [.existingUsersEvt "b" ["a"] false getIceServers "r1" 0 2 10,
       .userJoinedEvt "r1" "b" "bob" getIceServers 5,
       .roomJoinedEvt "b" "r1" "bob" false getIceServers 2] ∧
    existingUsersPayload
      (joinRoom ⟨[("r1", ⟨["a"], "a", 0, 10⟩)], [("a", ⟨"r1", "alice", 0⟩)]⟩
        "b" ⟨"r1", "bob"⟩ 5).2 = some ["a"] ∧
    ["a"].map (fun id => wireNickname (WireUser.idString id)) = [none] ∧
    ["a"].map (fun id => wireSocketId (WireUser.idString id)) = [none] ∧
    mapGet [("a", (⟨"r1", "alice", 0⟩ : UserInfo))] "a" =
      some ⟨"r1", "alice", 0⟩ := by
  decide
